import Mathlib

/-!
Verification development for the AWS CLF-C02 question-extraction engine
(`parser.py` and the duplicate detector of `scripts/4_generate_questions.py`).

The Python source is shallowly embedded: strings are Lean `String`s, the
options dictionary is an insertion-ordered association list (matching CPython
dict semantics), the mutable parser state is threaded explicitly, and the
`while` loops over the line list become structural recursion over the list of
remaining lines.  Python's `str.strip`, `str.lower`, `in` (substring test),
`str.replace(pat, '')` and the three regular expressions of `parser.py` are
implemented directly on `List Char`.  `str.lower` is modelled as per-character
ASCII lowering (all table entries that contain uppercase letters are ASCII).
-/

namespace Clf02

/-- Substring test on character lists: `subList needle hay` is true iff
`needle` occurs contiguously in `hay` (Python's `needle in hay`).  The empty
needle occurs in every string, as in Python. -/
def subList : List Char → List Char → Bool
  | needle, [] => needle.isEmpty
  | needle, c :: t => needle.isPrefixOf (c :: t) || subList needle t

/-- Python `needle in hay` for strings. -/
def strContains (hay needle : String) : Bool :=
  subList needle.data hay.data

/-- Python `s.startswith (pre)`. -/
def startsW (s pre : String) : Bool :=
  pre.data.isPrefixOf s.data

/-- Python `s.strip()`: drop leading and trailing whitespace. -/
def pyStrip (s : String) : String :=
  String.mk (((s.data.dropWhile Char.isWhitespace).reverse.dropWhile Char.isWhitespace).reverse)

/-- Python `s.replace(pat, '')` on character lists: remove every
(non-overlapping, leftmost-first) occurrence of `pat`.  The extra fuel
argument (always called with the length of the list, which bounds the number
of steps) keeps the recursion structural. -/
def removeAllF (pat : List Char) : Nat → List Char → List Char
  | _, [] => []
  | 0, l => l
  | fuel + 1, c :: t =>
    if pat ≠ [] ∧ pat.isPrefixOf (c :: t) then
      removeAllF pat fuel ((c :: t).drop pat.length)
    else c :: removeAllF pat fuel t

/-- Python `s.replace(pat, '')` on character lists. -/
def removeAll (pat l : List Char) : List Char :=
  removeAllF pat l.length l

/-- Python `s.replace(pat, '')` on strings. -/
def strRemove (s pat : String) : String :=
  String.mk (removeAll pat.data s.data)

/-- Python `s.lower()`, modelled as per-character ASCII lowering. -/
def lowerStr (s : String) : String :=
  String.mk (s.data.map Char.toLower)

/-- Numeric value of a digit run (the integer captured by `(\d+)`). -/
def natOfDigits (ds : List Char) : Nat :=
  ds.foldl (fun n c => n * 10 + (c.toNat - 48)) 0

/-- Python `' '.join(l)`. -/
def joinSpace (l : List String) : String :=
  String.intercalate " " l

/-- The module-level table `OFFICIAL_DOMAINS` of `parser.py`: domain name,
exam weight, keyword list, in the source's insertion order. -/
def OFFICIAL_DOMAINS : List (String × Nat × List String) :=
  [ ("Domain 1: Cloud Concepts", 24,
      ["beneficios", "cloud", "escalabilidad", "elasticidad", "agilidad",
       "alta disponibilidad", "tolerancia a fallos", "economía", "migración"]),
    ("Domain 2: Security and Compliance", 30,
      ["seguridad", "IAM", "Shield", "WAF", "GuardDuty", "Inspector",
       "responsabilidad compartida", "cifrado", "compliance", "políticas"]),
    ("Domain 3: Cloud Technology and Services", 34,
      ["EC2", "S3", "Lambda", "RDS", "DynamoDB", "ECS", "EKS", "VPC",
       "CloudFront", "Route 53", "contenedor", "almacenamiento", "base de datos"]),
    ("Domain 4: Billing, Pricing, and Support", 12,
      ["facturación", "precio", "costo", "soporte", "Trusted Advisor",
       "AWS Support", "Cost Explorer", "presupuesto", "TCO", "ROI", "CAF"]) ]

/-- The module-level table `VALID_AWS_SERVICES` of `parser.py`.  The source
stores these in a Python `set` whose iteration order is unspecified; the
embedding keeps the literal order of the source text.  Every property proved
below about this table is order-independent. -/
def VALID_AWS_SERVICES : List String :=
  [ "AWS Shield", "Amazon GuardDuty", "AWS WAF", "Amazon Inspector", "AWS IAM",
    "AWS KMS", "AWS Secrets Manager", "AWS Certificate Manager",
    "Amazon EC2", "AWS Lambda", "AWS Elastic Beanstalk", "AWS Fargate",
    "Amazon ECS", "Amazon EKS", "Amazon ECR",
    "Amazon S3", "Amazon EBS", "Amazon EFS", "AWS Storage Gateway",
    "AWS Snowball", "AWS DataSync",
    "Amazon RDS", "Amazon DynamoDB", "Amazon Aurora", "Amazon Redshift",
    "Amazon ElastiCache", "Amazon Neptune",
    "Amazon VPC", "Amazon CloudFront", "Amazon Route 53", "AWS Direct Connect",
    "Elastic Load Balancing", "AWS VPN",
    "Amazon Rekognition", "Amazon Textract", "Amazon Comprehend",
    "Amazon Transcribe", "Amazon Polly", "Amazon Translate", "Amazon SageMaker",
    "Amazon Athena", "AWS Glue", "Amazon QuickSight", "Amazon Kinesis",
    "AWS CloudFormation", "AWS CloudTrail", "Amazon CloudWatch",
    "AWS Config", "AWS Systems Manager", "AWS Trusted Advisor",
    "AWS Cost Explorer", "AWS Budgets", "AWS Organizations" ]

namespace QuestionParser

/-- The per-domain keyword scores computed by `_classify_domain`:
`score = sum(1 for keyword in keywords if keyword.lower() in text_lower)`. -/
def domainScoresOf (text : String) : List (String × Nat) :=
  let tl := lowerStr text
  OFFICIAL_DOMAINS.map (fun d => (d.1, d.2.2.countP (fun k => strContains tl (lowerStr k))))

/-- Python `max(values)` over the (nonempty, natural-valued) score list. -/
def maxScoreVal (scores : List (String × Nat)) : Nat :=
  (scores.map Prod.snd).foldl Nat.max 0

/-- Python `max(scores, key=scores.get)` over an insertion-ordered dict:
iterate in order, keep the current best unless a strictly greater value
appears, so the first key attaining the maximum wins. -/
def maxByFirst : List (String × Nat) → String
  | [] => ""
  | p :: t => (t.foldl (fun best q => if q.2 > best.2 then q else best) p).1

/-- `QuestionParser._classify_domain`. -/
def classifyDomain (text : String) : String :=
  let scores := domainScoresOf text
  if maxScoreVal scores > 0 then maxByFirst scores
  else "Domain 3: Cloud Technology and Services"

/-- `QuestionParser._extract_services`: a service matches when its full name,
or the name with the brand prefix removed (`replace('Amazon ', '')` /
`replace('AWS ', '')`), occurs in the text. -/
def extractServices (text : String) : List String :=
  VALID_AWS_SERVICES.filter (fun s =>
    strContains text s || strContains text (strRemove s "Amazon ") ||
      strContains text (strRemove s "AWS "))

end QuestionParser

/-- A raw question block under construction (the `current_question` dict of
`parse`; the unused `context` key is omitted).  `options` is an
insertion-ordered association list, mirroring a CPython dict. -/
structure RawQuestion where
  number : Nat
  question : String
  options : List (Char × String)
  correct_answer : Option Char
  explanation : String
deriving DecidableEq, Repr

/-- One accepted question (the dict appended to `self.questions`). -/
structure QuestionRecord where
  id : Nat
  originalNumber : Nat
  domain : String
  question : String
  options : List (Char × String)
  correctAnswer : Option Char
  explanation : String
  services : List String
deriving DecidableEq, Repr

/-- The payload of one entry of `self.validation_errors`.  The source renders
each as an f-string starting with the question number; the embedding keeps
the number and the condition structurally. -/
inductive VErrorKind where
  | wrongOptionCount (got : Nat)
  | incompleteKeys (keys : List Char)
  | noCorrectAnswer
  | correctNotInOptions (c : Char)
deriving DecidableEq, Repr

/-- One recorded validation error: ordinal of the offending block plus the
violated condition. -/
structure VError where
  qnum : Nat
  kind : VErrorKind
deriving DecidableEq, Repr

/-- The mutable state of a `QuestionParser` instance: `self.questions`,
`self.validation_errors` and `self.reflection_notes` (a note is recorded by
the number of the question it concerns). -/
structure ParserState where
  questions : List QuestionRecord
  errors : List VError
  notes : List Nat
deriving DecidableEq, Repr

/-- CPython dict assignment `d[k] = v` on an insertion-ordered association
list: an existing key keeps its position and gets the new value, a new key is
appended at the end. -/
def dictInsert : List (Char × String) → Char → String → List (Char × String)
  | [], k, v => [(k, v)]
  | (k', v') :: t, k, v =>
    if k' = k then (k, v) :: t else (k', v') :: dictInsert t k v

/-- Python `set(keys) == {'A','B','C','D'}` as a Boolean on the key list. -/
def keysSetABCD (keys : List Char) : Bool :=
  decide ((∀ k ∈ keys, k ∈ (['A', 'B', 'C', 'D'] : List Char)) ∧
    (∀ k ∈ (['A', 'B', 'C', 'D'] : List Char), k ∈ keys))

namespace QuestionParser

/-- `QuestionParser._validate_question`.  Returns the list of hard errors
(the source returns `(len(errors) == 0, errors)`) together with the flag
telling whether the soft reflection note "mentions no AWS service" must be
appended (the source appends it to `self.reflection_notes` directly). -/
def validateQuestion (number : Nat) (question : String)
    (options : List (Char × String)) (correct_answer : Option Char) :
    List VError × Bool :=
  let keys := options.map Prod.fst
  let e1 : List VError :=
    if options.length ≠ 4 then [⟨number, .wrongOptionCount options.length⟩] else []
  let e2 : List VError :=
    if ¬ keysSetABCD keys then [⟨number, .incompleteKeys keys⟩] else []
  let e3 : List VError :=
    if correct_answer = none then [⟨number, .noCorrectAnswer⟩] else []
  let e4 : List VError :=
    match correct_answer with
    | some c => if c ∉ keys then [⟨number, .correctNotInOptions c⟩] else []
    | none => []
  let noteNeeded :=
    decide (extractServices (question ++ " " ++ joinSpace (options.map Prod.snd)) = [])
  (e1 ++ e2 ++ e3 ++ e4, noteNeeded)

/-- `QuestionParser._process_question`: classify, validate, then either
append an accepted record (with the dense 1-based `id`) or extend the error
list; the soft reflection note is appended in either case. -/
def processQuestion (st : ParserState) (q : RawQuestion) : ParserState :=
  let fullText := q.question ++ " " ++ joinSpace (q.options.map Prod.snd)
  let domain := classifyDomain fullText
  let v := validateQuestion q.number q.question q.options q.correct_answer
  let notes' := if v.2 then st.notes ++ [q.number] else st.notes
  if v.1 = [] then
    { questions := st.questions ++
        [{ id := st.questions.length + 1
           originalNumber := q.number
           domain := domain
           question := q.question
           options := q.options
           correctAnswer := q.correct_answer
           explanation := q.explanation
           services := extractServices fullText }]
      errors := st.errors
      notes := notes' }
  else
    { questions := st.questions, errors := st.errors ++ v.1, notes := notes' }

/-- The guarded flush `if current_question and current_question.get('options'):
self._process_question(current_question)` used both mid-loop (on a new
question header) and after the scan loop ends. -/
def flushBlock (st : ParserState) (cur : Option RawQuestion) : ParserState :=
  match cur with
  | none => st
  | some q => if q.options ≠ [] then processQuestion st q else st

/-- The regex `^(\d+)\.\s+(¿.+)$` applied to a stripped line: returns the
captured number and the second group (which starts with `¿` and has at least
one further character). -/
def matchQuestionHeader (s : String) : Option (Nat × String) :=
  let sp := s.data.span Char.isDigit
  match h : sp.2 with
  | '.' :: rest2 =>
    if sp.1 = [] then none
    else
      let sp2 := rest2.span Char.isWhitespace
      if sp2.1 = [] then none
      else
        match sp2.2 with
        | '¿' :: _ :: _ => some (natOfDigits sp.1, String.mk sp2.2)
        | _ => none
  | _ => none

/-- The guard regex `^[A-D]\)`. -/
def optionStart (s : String) : Bool :=
  match s.data with
  | a :: ')' :: _ => 'A' ≤ a && a ≤ 'D'
  | _ => false

/-- The regex `^([A-D])\)\s+(.+)` applied to a stripped line: returns the
option letter and the text after the whitespace run. -/
def matchOption (s : String) : Option (Char × String) :=
  match s.data with
  | a :: ')' :: rest =>
    if 'A' ≤ a ∧ a ≤ 'D' then
      let sp := rest.span Char.isWhitespace
      if sp.1 = [] ∨ sp.2 = [] then none else some (a, String.mk sp.2)
    else none
  | _ => none

/-- `re.search(r'([A-D])\)', s)`: the first position where a letter A-D is
immediately followed by a closing parenthesis. -/
def searchLetterParen : List Char → Option Char
  | [] => none
  | a :: t =>
    if ('A' ≤ a ∧ a ≤ 'D') ∧ t.head? = some ')' then some a
    else searchLetterParen t

/-- The guard regex `^\d+\.` used by the explanation scanner. -/
def numDotStart (s : String) : Bool :=
  let sp := s.data.span Char.isDigit
  match sp.2 with
  | '.' :: _ => ¬ sp.1.isEmpty
  | _ => false

/-- The question-continuation lookahead of `parse` (the inner `while j`
loop after a header match): walk the following lines until an option line,
appending non-empty lines that do not start with `✔` or `📌`, and stop after
any line containing `?`. -/
def scanContinuation : List String → String → String
  | [], acc => acc
  | l :: t, acc =>
    let nl := pyStrip l
    if optionStart nl then acc
    else
      let acc' :=
        if nl ≠ "" ∧ ¬ startsW nl "✔" ∧ ¬ startsW nl "📌" then acc ++ " " ++ nl else acc
      if strContains nl "?" then acc' else scanContinuation t acc'

/-- The explanation lookahead of `parse` (the inner `while j` loop after a
`✔ Correcta:` line): skip lines starting with `❌` or `📌`, stop at the next
question header or a blank line, append everything else. -/
def scanExplanation : List String → String → String
  | [], acc => acc
  | l :: t, acc =>
    let nl := pyStrip l
    if startsW nl "❌" || startsW nl "📌" then scanExplanation t acc
    else if numDotStart nl || nl = "" then acc
    else scanExplanation t (acc ++ " " ++ nl)

/-- The main scan loop of `QuestionParser.parse`.  The Python `while i <
len(lines)` loop with its shared index becomes structural recursion over the
list of remaining lines; the lookahead loops receive the lines after the
current one, exactly as `j = i + 1` does in the source. -/
def parseLoop : List String → Option RawQuestion → ParserState → ParserState
  | [], cur, st => flushBlock st cur
  | l :: rest, cur, st =>
    let line := pyStrip l
    match matchQuestionHeader line with
    | some (num, g2) =>
      let st' := flushBlock st cur
      let qtext := scanContinuation rest (pyStrip g2)
      parseLoop rest (some ⟨num, qtext, [], none, ""⟩) st'
    | none =>
      match cur with
      | none => parseLoop rest none st
      | some q =>
        if optionStart line then
          match matchOption line with
          | some (letter, g2) =>
            let text := pyStrip g2
            if strContains text "✅" then
              parseLoop rest
                (some { q with
                          options := dictInsert q.options letter (pyStrip (strRemove text "✅"))
                          correct_answer := some letter }) st
            else
              parseLoop rest (some { q with options := dictInsert q.options letter text }) st
          | none => parseLoop rest (some q) st
        else if startsW line "✔ Correcta:" then
          let expl0 := pyStrip (strRemove line "✔ Correcta:")
          let corr' :=
            if q.correct_answer = none then searchLetterParen expl0.data
            else q.correct_answer
          let expl := scanExplanation rest expl0
          parseLoop rest (some { q with correct_answer := corr', explanation := expl }) st
        else parseLoop rest (some q) st

/-- `QuestionParser.parse` on an already-split list of input lines, starting
from a fresh parser instance. -/
def parse (lines : List String) : ParserState :=
  parseLoop lines none ⟨[], [], []⟩

end QuestionParser

/-- Python `Counter(l)`: per-key counts in first-occurrence order. -/
def counterIncr : List (String × Nat) → String → List (String × Nat)
  | [], s => [(s, 1)]
  | (k, n) :: t, s => if k = s then (k, n + 1) :: t else (k, n) :: counterIncr t s

/-- Python `Counter(l)` built by a left fold. -/
def counterOf (l : List String) : List (String × Nat) :=
  l.foldl counterIncr []

/-- Stable insertion into a count-descending list: the new pair goes after
every pair with a count greater than or equal to its own. -/
def insertDesc (p : String × Nat) : List (String × Nat) → List (String × Nat)
  | [] => [p]
  | q :: t => if q.2 ≥ p.2 then q :: insertDesc p t else p :: q :: t

/-- `Counter.most_common(n)`: stable sort by count descending, first `n`. -/
def mostCommon (counts : List (String × Nat)) (n : Nat) : List (String × Nat) :=
  (counts.foldl (fun acc p => insertDesc p acc) []).take n

/-- Python `round(x, 1)` (round half to even at one decimal).  The source
computes percentages in floating point; the embedding uses exact rationals. -/
def pyRound1 (q : ℚ) : ℚ :=
  let x := q * 10
  let f : ℤ := Rat.floor x
  let r := x - (f : ℚ)
  let n : ℤ :=
    if r < 1 / 2 then f
    else if 1 / 2 < r then f + 1
    else if f % 2 = 0 then f else f + 1
  (n : ℚ) / 10

/-- One row of the domain-comparison table of the reflection report:
rounded actual percentage, expected weight, rounded signed difference. -/
structure DomainStats where
  actual : ℚ
  expected : ℚ
  difference : ℚ
deriving DecidableEq, Repr

/-- The dict returned by `QuestionParser.generate_reflection_report`. -/
structure ReflectionReport where
  total_questions : Nat
  valid_questions : Nat
  validation_errors : Nat
  domain_distribution : List (String × DomainStats)
  top_services : List (String × Nat)
  reflection_notes : List Nat
deriving DecidableEq, Repr

namespace QuestionParser

/-- The `domain_percentages` dict comprehension of
`generate_reflection_report`: one entry per domain actually present in the
counts (so no division is performed when the accepted set is empty). -/
def domainPercentages (questions : List QuestionRecord) : List (String × ℚ) :=
  let domain_counts := counterOf (questions.map (fun q => q.domain))
  domain_counts.map (fun p => (p.1, (p.2 : ℚ) / (questions.length : ℚ) * 100))

/-- Python `d.get(k, 0)` on the percentage association list. -/
def pctGet (pcts : List (String × ℚ)) (k : String) : ℚ :=
  match pcts.find? (fun p => p.1 = k) with
  | some p => p.2
  | none => 0

/-- `QuestionParser.generate_reflection_report` as a function of the three
state lists of the parser instance. -/
def generateReflectionReport (questions : List QuestionRecord)
    (validation_errors : List VError) (reflection_notes : List Nat) :
    ReflectionReport :=
  let total := questions.length
  let pcts := domainPercentages questions
  let comparison := OFFICIAL_DOMAINS.map (fun d =>
    let actual := pctGet pcts d.1
    (d.1, { actual := pyRound1 actual
            expected := (d.2.1 : ℚ)
            difference := pyRound1 (actual - (d.2.1 : ℚ)) : DomainStats }))
  let all_services := (questions.map (fun q => q.services)).flatten
  { total_questions := total
    valid_questions := questions.length
    validation_errors := validation_errors.length
    domain_distribution := comparison
    top_services := mostCommon (counterOf all_services) 10
    reflection_notes := reflection_notes.take 20 }

end QuestionParser

/-!
Embedding of `difflib.SequenceMatcher` as used by
`QuestionGenerator.similarity_ratio` in `scripts/4_generate_questions.py`.
The texts compared there are far shorter than 200 characters, so difflib's
autojunk heuristic never fires and no element is junk; the embedding models
that junk-free case.
-/

/-- One row of the `j2len` dynamic program of
`SequenceMatcher.find_longest_match`: entry `j` is the length of the common
run ending at the current element of `a` and position `j` of `b`. -/
def flmRow (ai : Char) (b : List Char) (blo bhi : Nat) (prev : List Nat) : List Nat :=
  (List.range b.length).map (fun j =>
    if blo ≤ j ∧ j < bhi ∧ b.get? j = some ai then
      (if j = 0 then 0 else prev.getD (j - 1) 0) + 1
    else 0)

/-- The best-so-far update of `find_longest_match`: scan the row positions in
ascending order and replace the best triple only on a strictly larger run, so
the first maximal run (smallest end row, then smallest end column) wins. -/
def flmBest (row : List Nat) (i : Nat) (best : Nat × Nat × Nat) : Nat × Nat × Nat :=
  row.enum.foldl (fun bst jk =>
    if jk.2 > bst.2.2 then (i + 1 - jk.2, jk.1 + 1 - jk.2, jk.2) else bst) best

/-- `SequenceMatcher.find_longest_match(alo, ahi, blo, bhi)` with no junk:
fold the dynamic program over the rows `alo ≤ i < ahi` and return
`(besti, bestj, bestsize)`. -/
def findLongestMatch (a b : List Char) (alo ahi blo bhi : Nat) : Nat × Nat × Nat :=
  ((List.range' alo (ahi - alo)).foldl
    (fun st i =>
      let row := flmRow (a.getD i ' ') b blo bhi st.1
      (row, flmBest row i st.2))
    (List.replicate b.length 0, (alo, blo, 0))).2

/-- Total number of matched elements over `get_matching_blocks`: recurse on
both sides of the longest match, as difflib's block queue does.  The fuel
argument (always called with the total size of the two ranges, which strictly
bounds the recursion depth) keeps the recursion structural; the bound checks
in the guard always hold for the triple returned by `findLongestMatch`. -/
def matchTotalF (a b : List Char) : Nat → Nat → Nat → Nat → Nat → Nat
  | 0, _, _, _, _ => 0
  | fuel + 1, alo, ahi, blo, bhi =>
    match findLongestMatch a b alo ahi blo bhi with
    | (i, j, k) =>
      if 0 < k ∧ alo ≤ i ∧ i + k ≤ ahi ∧ blo ≤ j ∧ j + k ≤ bhi then
        matchTotalF a b fuel alo i blo j + k + matchTotalF a b fuel (i + k) ahi (j + k) bhi
      else 0

/-- Total number of matched elements of `get_matching_blocks`. -/
def matchTotal (a b : List Char) (alo ahi blo bhi : Nat) : Nat :=
  matchTotalF a b ((ahi - alo) + (bhi - blo)) alo ahi blo bhi

/-- `difflib._calculate_ratio(matches, length)`. -/
def calculateRatio (m len : Nat) : ℚ :=
  if len ≠ 0 then 2 * (m : ℚ) / (len : ℚ) else 1

namespace QuestionGenerator

/-- `QuestionGenerator.similarity_ratio`: the `SequenceMatcher` ratio of the
two lowercased texts. -/
def similarityValue (text1 text2 : String) : ℚ :=
  let a := (lowerStr text1).data
  let b := (lowerStr text2).data
  calculateRatio (matchTotal a b 0 a.length 0 b.length) (a.length + b.length)

/-- `QuestionGenerator.is_duplicate`: the candidate is flagged iff its
similarity against some previously generated question strictly exceeds the
threshold (the source's default threshold is 0.7). -/
def isDuplicate (generated_questions : List String) (new_question : String)
    (threshold : ℚ) : Bool :=
  generated_questions.any (fun existing =>
    similarityValue new_question existing > threshold)

end QuestionGenerator

/-!  Theorems about the embedded program.  -/

/-- Folding `Nat.max` over a list of zeros leaves the accumulator alone. -/
lemma foldl_max_zeros (l : List Nat) (acc : Nat) (h : ∀ x ∈ l, x = 0) :
    l.foldl Nat.max acc = acc := by
  induction l generalizing acc with
  | nil => rfl
  | cons x t ih =>
    have hx : x = 0 := h x (by simp)
    simp only [List.foldl_cons, hx, Nat.max_zero]
    exact ih acc (fun y hy => h y (by simp [hy]))

/-- C7: on any text in which every domain's keyword score is zero, the
classifier falls back to the fixed default Domain 3 instead of leaving the
block unclassified. -/
theorem classifyDomain_zero_scores_default (text : String)
    (h : ∀ p ∈ QuestionParser.domainScoresOf text, p.2 = 0) :
    QuestionParser.classifyDomain text = "Domain 3: Cloud Technology and Services" := by
  unfold QuestionParser.classifyDomain
  have hm : QuestionParser.maxScoreVal (QuestionParser.domainScoresOf text) = 0 := by
    unfold QuestionParser.maxScoreVal
    refine foldl_max_zeros _ _ ?_
    intro x hx
    simp only [List.mem_map] at hx
    obtain ⟨p, hp, rfl⟩ := hx
    exact h p hp
  simp [hm]

/-- Witness for C7: the empty text scores zero on all four domains and is
classified as Domain 3. -/
theorem classifyDomain_zero_scores_default_witness :
    (∀ p ∈ QuestionParser.domainScoresOf "", p.2 = 0) ∧
      QuestionParser.classifyDomain "" = "Domain 3: Cloud Technology and Services" :=
  ⟨by decide, classifyDomain_zero_scores_default "" (by decide)⟩

/-- Second definition for the refinement claim C3, following the spec's
words: walk the score table in its fixed enumeration order and return the
first domain whose score reaches the given maximum. -/
def firstReaching (M : Nat) : List (String × Nat) → Option String
  | [] => none
  | p :: t => if p.2 = M then some p.1 else firstReaching M t

/-- Modelled from the spec: "first domain reaching the maximum in a fixed
enumeration order (Domain 1 → 2 → 3 → 4)". -/
def firstMaxDomainSpec (text : String) : Option String :=
  firstReaching (QuestionParser.maxScoreVal (QuestionParser.domainScoresOf text))
    (QuestionParser.domainScoresOf text)

/-- On a four-entry score table, Python's `max(scores, key=scores.get)`
(first key on strict improvement) picks exactly the first entry whose value
reaches the maximum of the values. -/
lemma maxByFirst_eq_firstReaching (n1 n2 n3 n4 : String) (a b c d : Nat) :
    some (QuestionParser.maxByFirst [(n1, a), (n2, b), (n3, c), (n4, d)]) =
      firstReaching (QuestionParser.maxScoreVal [(n1, a), (n2, b), (n3, c), (n4, d)])
        [(n1, a), (n2, b), (n3, c), (n4, d)] := by
  simp only [QuestionParser.maxByFirst, QuestionParser.maxScoreVal, firstReaching,
    List.map_cons, List.map_nil, List.foldl_cons, List.foldl_nil]
  dsimp only
  set M := (((Nat.max 0 a).max b).max c).max d with hMdef
  have hub : a ≤ M ∧ b ≤ M ∧ c ≤ M ∧ d ≤ M ∧
      (M = 0 ∨ M = a ∨ M = b ∨ M = c ∨ M = d) := by
    rw [hMdef]
    simp only [Nat.max_def]
    split_ifs <;> omega
  clear_value M
  obtain ⟨ha, hb, hc, hd, hcases⟩ := hub
  split_ifs <;> first | rfl | omega

/-- C3: the domain classifier is a function of the text alone (two calls on
identical text agree), and whenever the maximal keyword score is positive its
result is the first domain, in the fixed order of the domain table, whose
score reaches the maximum. -/
theorem classifyDomain_deterministic_first_max (text : String) :
    QuestionParser.classifyDomain text = QuestionParser.classifyDomain text ∧
      (0 < QuestionParser.maxScoreVal (QuestionParser.domainScoresOf text) →
        some (QuestionParser.classifyDomain text) = firstMaxDomainSpec text) := by
  refine ⟨rfl, fun hpos => ?_⟩
  unfold QuestionParser.classifyDomain firstMaxDomainSpec
  rw [if_pos hpos]
  have h4 : ∃ p1 p2 p3 p4, QuestionParser.domainScoresOf text = [p1, p2, p3, p4] :=
    ⟨_, _, _, _, rfl⟩
  obtain ⟨⟨n1, a⟩, ⟨n2, b⟩, ⟨n3, c⟩, ⟨n4, d⟩, hE⟩ := h4
  rw [hE]
  exact maxByFirst_eq_firstReaching n1 n2 n3 n4 a b c d

/-- Witness for C3 at a concrete tie: "cloud seguridad" scores 1 on both
Domain 1 and Domain 2, and the classifier picks Domain 1. -/
theorem classifyDomain_deterministic_first_max_witness :
    0 < QuestionParser.maxScoreVal (QuestionParser.domainScoresOf "cloud seguridad") ∧
      some (QuestionParser.classifyDomain "cloud seguridad") =
        firstMaxDomainSpec "cloud seguridad" :=
  ⟨by decide, (classifyDomain_deterministic_first_max "cloud seguridad").2 (by decide)⟩

/-- C4 (amended): the duplicate flag is raised exactly when the similarity
against some previously accepted text STRICTLY exceeds the threshold; in
particular a candidate whose ratio against every previous text is below the
threshold is never flagged, and a ratio exactly equal to the threshold does
not flag. -/
theorem isDuplicate_iff_strictly_above (existing : List String)
    (new_question : String) (threshold : ℚ) :
    QuestionGenerator.isDuplicate existing new_question threshold = true ↔
      ∃ e ∈ existing, QuestionGenerator.similarityValue new_question e > threshold := by
  simp [QuestionGenerator.isDuplicate, List.any_eq_true]

set_option maxRecDepth 40000 in
/-- Counterexample to C4 as stated: the two ten-character texts below have
similarity ratio exactly 7/10 (seven matched characters, total length 20),
which is ≥ 0.7, yet the candidate is NOT flagged as a duplicate, because the
source compares with strict `>`. -/
theorem ratio_exactly_point7_not_flagged :
    QuestionGenerator.similarityValue "1234567xyz" "1234567890" = 7 / 10 ∧
      ¬ ((7 : ℚ) / 10 > 7 / 10) ∧
      QuestionGenerator.isDuplicate ["1234567890"] "1234567xyz" (7 / 10) = false := by
  have hm : matchTotal (lowerStr "1234567xyz").data (lowerStr "1234567890").data 0
      (lowerStr "1234567xyz").data.length 0 (lowerStr "1234567890").data.length = 7 := by
    decide
  have hl1 : (lowerStr "1234567xyz").data.length = 10 := by decide
  have hl2 : (lowerStr "1234567890").data.length = 10 := by decide
  have hsim : QuestionGenerator.similarityValue "1234567xyz" "1234567890" = 7 / 10 := by
    unfold QuestionGenerator.similarityValue
    simp only []
    rw [hm, hl1, hl2]
    norm_num [calculateRatio]
  refine ⟨hsim, by norm_num, ?_⟩
  simp [QuestionGenerator.isDuplicate, hsim]

/-- The structural invariant claimed for every accepted record: exactly four
options, key set exactly A-D, and a non-null correct answer that is one of
the option keys. -/
def RecordInvariant (r : QuestionRecord) : Prop :=
  r.options.length = 4 ∧
    (∀ k : Char, k ∈ r.options.map Prod.fst ↔ k ∈ (['A', 'B', 'C', 'D'] : List Char)) ∧
    ∃ c, r.correctAnswer = some c ∧ c ∈ r.options.map Prod.fst

/-- An empty error list from the validator forces all four hard conditions. -/
lemma validateQuestion_nil (number : Nat) (question : String)
    (options : List (Char × String)) (correct_answer : Option Char)
    (h : (QuestionParser.validateQuestion number question options correct_answer).1 = []) :
    options.length = 4 ∧ keysSetABCD (options.map Prod.fst) = true ∧
      ∃ c, correct_answer = some c ∧ c ∈ options.map Prod.fst := by
  simp only [QuestionParser.validateQuestion] at h
  rcases correct_answer with _ | c
  · simp only [List.append_eq_nil] at h
    obtain ⟨⟨⟨h1, h2⟩, h3⟩, h4⟩ := h
    split_ifs at h3
  · simp only [List.append_eq_nil] at h
    obtain ⟨⟨⟨h1, h2⟩, h3⟩, h4⟩ := h
    split_ifs at h1 h2 h4 with ha hb hc
    refine ⟨by omega, by simpa using hb, c, rfl, by simpa using hc⟩

/-- The record built by `_process_question` for an accepted block. -/
def acceptedRecord (st : ParserState) (q : RawQuestion) : QuestionRecord :=
  { id := st.questions.length + 1
    originalNumber := q.number
    domain := QuestionParser.classifyDomain
      (q.question ++ " " ++ joinSpace (q.options.map Prod.snd))
    question := q.question
    options := q.options
    correctAnswer := q.correct_answer
    explanation := q.explanation
    services := QuestionParser.extractServices
      (q.question ++ " " ++ joinSpace (q.options.map Prod.snd)) }

/-- Questions after `processQuestion`: appended on acceptance, else kept. -/
lemma processQuestion_questions (st : ParserState) (q : RawQuestion) :
    (QuestionParser.processQuestion st q).questions =
      if (QuestionParser.validateQuestion q.number q.question q.options q.correct_answer).1 = []
      then st.questions ++ [acceptedRecord st q] else st.questions := by
  simp only [QuestionParser.processQuestion, acceptedRecord]
  split_ifs <;> rfl

/-- Errors after `processQuestion`: extended on rejection, else kept. -/
lemma processQuestion_errors (st : ParserState) (q : RawQuestion) :
    (QuestionParser.processQuestion st q).errors =
      if (QuestionParser.validateQuestion q.number q.question q.options q.correct_answer).1 = []
      then st.errors
      else st.errors ++
        (QuestionParser.validateQuestion q.number q.question q.options q.correct_answer).1 := by
  simp only [QuestionParser.processQuestion]
  split_ifs <;> rfl

/-- Notes after `processQuestion`: the question number is appended exactly
when the validator's soft condition fired, independently of acceptance. -/
lemma processQuestion_notes (st : ParserState) (q : RawQuestion) :
    (QuestionParser.processQuestion st q).notes =
      if (QuestionParser.validateQuestion q.number q.question q.options q.correct_answer).2 = true
      then st.notes ++ [q.number] else st.notes := by
  simp only [QuestionParser.processQuestion]
  split_ifs <;> rfl

/-- A record appended by `processQuestion` satisfies the invariant, and old
records are untouched. -/
lemma processQuestion_inv (st : ParserState) (q : RawQuestion)
    (h : ∀ r ∈ st.questions, RecordInvariant r) :
    ∀ r ∈ (QuestionParser.processQuestion st q).questions, RecordInvariant r := by
  intro r hr
  rw [processQuestion_questions] at hr
  split_ifs at hr with hv
  · simp only [List.mem_append, List.mem_singleton] at hr
    rcases hr with hr | hr
    · exact h r hr
    · subst hr
      obtain ⟨hlen, hkeys, c, hc, hcm⟩ := validateQuestion_nil _ _ _ _ hv
      refine ⟨hlen, ?_, c, hc, hcm⟩
      have hset := of_decide_eq_true hkeys
      intro k
      exact ⟨fun hk => hset.1 k hk, fun hk => hset.2 k hk⟩
  · exact h r hr

/-- `flushBlock` preserves the invariant. -/
lemma flushBlock_inv (st : ParserState) (cur : Option RawQuestion)
    (h : ∀ r ∈ st.questions, RecordInvariant r) :
    ∀ r ∈ (QuestionParser.flushBlock st cur).questions, RecordInvariant r := by
  rcases cur with _ | q
  · exact h
  · simp only [QuestionParser.flushBlock]
    split_ifs with hq
    · exact processQuestion_inv st q h
    · exact h

/-- The main scan loop preserves the invariant. -/
lemma parseLoop_inv (lines : List String) (cur : Option RawQuestion)
    (st : ParserState) (h : ∀ r ∈ st.questions, RecordInvariant r) :
    ∀ r ∈ (QuestionParser.parseLoop lines cur st).questions, RecordInvariant r := by
  induction lines generalizing cur st with
  | nil => exact flushBlock_inv st cur h
  | cons l rest ih =>
    simp only [QuestionParser.parseLoop]
    repeat' split
    all_goals first
      | exact ih _ _ (flushBlock_inv st cur h)
      | exact ih _ _ h

/-- C1: every `QuestionRecord` accepted by the extraction pipeline has
exactly four options with key set exactly A, B, C, D, and a non-null
`correctAnswer` that is a key of `options`. -/
theorem accepted_record_invariant (lines : List String) (r : QuestionRecord)
    (hr : r ∈ (QuestionParser.parse lines).questions) : RecordInvariant r :=
  parseLoop_inv lines none ⟨[], [], []⟩ (by intro r h; cases h) r hr

/-- The input document used to witness C1. -/
def docC1 : List String :=
  [ "1. ¿Que es Amazon EC2?",
    "A) Computo ✅",
    "B) Base",
    "C) Almacen",
    "D) Red" ]

/-- The record that the pipeline accepts from `docC1`. -/
def recC1 : QuestionRecord :=
  { id := 1
    originalNumber := 1
    domain := "Domain 3: Cloud Technology and Services"
    question := "¿Que es Amazon EC2?"
    options := [('A', "Computo"), ('B', "Base"), ('C', "Almacen"), ('D', "Red")]
    correctAnswer := some 'A'
    explanation := ""
    services := ["Amazon EC2"] }

set_option maxRecDepth 100000 in
/-- Witness for C1: a concrete accepted record of a concrete document
satisfies the invariant. -/
theorem accepted_record_invariant_witness :
    recC1 ∈ (QuestionParser.parse docC1).questions ∧ RecordInvariant recC1 :=
  ⟨by decide, accepted_record_invariant docC1 recC1 (by decide)⟩

/-- All errors produced by one validator call carry the block's ordinal. -/
lemma validateQuestion_qnum (number : Nat) (question : String)
    (options : List (Char × String)) (correct_answer : Option Char) :
    ∀ e ∈ (QuestionParser.validateQuestion number question options correct_answer).1,
      e.qnum = number := by
  intro e he
  simp only [QuestionParser.validateQuestion] at he
  rcases correct_answer with _ | c <;>
    simp only [List.mem_append] at he <;>
    rcases he with ((he | he) | he) | he <;>
    first
      | simp_all
      | (split_ifs at he <;> simp_all)

set_option maxRecDepth 100000 in
/-- Counterexample to C5 as stated: the one-line document below opens a
question block (the header matches) but no option line follows, so the
terminal flush is skipped entirely — the final question is silently dropped:
it is neither accepted nor recorded in the error list. -/
theorem final_question_silently_dropped :
    QuestionParser.matchQuestionHeader (pyStrip "1. ¿x?") = some (1, "¿x?") ∧
      QuestionParser.parse ["1. ¿x?"] = ⟨[], [], []⟩ := by
  constructor
  · decide
  · decide

/-- C5 (amended): after the scan loop ends, the last open block is processed
(through classification and validation) exactly when it has at least one
recognized option — the same guard as the mid-loop flush — and in that case
the block is either accepted as a record carrying its original number or at
least one error carrying its original number is recorded. -/
theorem terminal_flush_nonempty_options (st : ParserState) (q : RawQuestion)
    (h : q.options ≠ []) :
    QuestionParser.parseLoop [] (some q) st = QuestionParser.processQuestion st q ∧
      ((∃ rec, (QuestionParser.processQuestion st q).questions = st.questions ++ [rec] ∧
          rec.originalNumber = q.number ∧
          (QuestionParser.processQuestion st q).errors = st.errors) ∨
        ((QuestionParser.processQuestion st q).questions = st.questions ∧
          ∃ e es, (QuestionParser.processQuestion st q).errors = st.errors ++ e :: es ∧
            ∀ x ∈ e :: es, x.qnum = q.number)) := by
  refine ⟨by simp [QuestionParser.parseLoop, QuestionParser.flushBlock, h], ?_⟩
  by_cases hv : (QuestionParser.validateQuestion q.number q.question q.options
      q.correct_answer).1 = []
  · left
    exact ⟨acceptedRecord st q,
      by rw [processQuestion_questions, if_pos hv], rfl,
      by rw [processQuestion_errors, if_pos hv]⟩
  · right
    refine ⟨by rw [processQuestion_questions, if_neg hv], ?_⟩
    rcases hes : (QuestionParser.validateQuestion q.number q.question q.options
        q.correct_answer).1 with _ | ⟨e, es⟩
    · exact absurd hes hv
    · refine ⟨e, es, by rw [processQuestion_errors, if_neg hv, hes], ?_⟩
      intro x hx
      exact validateQuestion_qnum _ _ _ _ x (hes ▸ hx)

/-- Witness for C5 (amended), at a concrete invalid single-option block:
the terminal flush processes it and records its errors. -/
theorem terminal_flush_nonempty_options_witness :
    QuestionParser.parseLoop [] (some ⟨7, "¿x?", [('A', "a")], some 'A', ""⟩)
        ⟨[], [], []⟩ =
      QuestionParser.processQuestion ⟨[], [], []⟩ ⟨7, "¿x?", [('A', "a")], some 'A', ""⟩ :=
  (terminal_flush_nonempty_options ⟨[], [], []⟩ ⟨7, "¿x?", [('A', "a")], some 'A', ""⟩
    (by decide)).1

/-- C8: a block whose header matched but in which no option line was ever
recognized is silently discarded: the shared guarded flush leaves the whole
parser state (accepted records, error list, reflection notes) unchanged, the
terminal flush is exactly that guarded flush, and the mid-loop flush on a new
question header goes through the same guarded flush. -/
theorem empty_options_block_silently_discarded :
    (∀ (st : ParserState) (q : RawQuestion), q.options = [] →
        QuestionParser.flushBlock st (some q) = st) ∧
      (∀ (cur : Option RawQuestion) (st : ParserState),
        QuestionParser.parseLoop [] cur st = QuestionParser.flushBlock st cur) ∧
      (∀ (l : String) (rest : List String) (cur : Option RawQuestion) (st : ParserState)
          (num : Nat) (g2 : String),
        QuestionParser.matchQuestionHeader (pyStrip l) = some (num, g2) →
        QuestionParser.parseLoop (l :: rest) cur st =
          QuestionParser.parseLoop rest
            (some ⟨num, QuestionParser.scanContinuation rest (pyStrip g2), [], none, ""⟩)
            (QuestionParser.flushBlock st cur)) := by
  refine ⟨?_, fun cur st => rfl, ?_⟩
  · intro st q hq
    simp [QuestionParser.flushBlock, hq]
  · intro l rest cur st num g2 hh
    simp only [QuestionParser.parseLoop, hh]

set_option maxRecDepth 100000 in
/-- Witness for C8: a concrete empty-options block is dropped without a
trace by the guarded flush, and a concrete header line triggers the mid-loop
flush path. -/
theorem empty_options_block_silently_discarded_witness :
    QuestionParser.flushBlock ⟨[], [], []⟩ (some ⟨3, "¿x?", [], none, ""⟩) = ⟨[], [], []⟩ ∧
      QuestionParser.parseLoop [] (some ⟨3, "¿x?", [], none, ""⟩) ⟨[], [], []⟩ =
        QuestionParser.flushBlock ⟨[], [], []⟩ (some ⟨3, "¿x?", [], none, ""⟩) ∧
      QuestionParser.parseLoop ["2. ¿y?"] none ⟨[], [], []⟩ =
        QuestionParser.parseLoop []
          (some ⟨2, QuestionParser.scanContinuation [] (pyStrip "¿y?"), [], none, ""⟩)
          (QuestionParser.flushBlock ⟨[], [], []⟩ none) :=
  ⟨empty_options_block_silently_discarded.1 ⟨[], [], []⟩ ⟨3, "¿x?", [], none, ""⟩ rfl,
    empty_options_block_silently_discarded.2.1 (some ⟨3, "¿x?", [], none, ""⟩) ⟨[], [], []⟩,
    empty_options_block_silently_discarded.2.2 "2. ¿y?" [] none ⟨[], [], []⟩ 2 "¿y?"
      (by decide)⟩

/-- The soft-note flag of the validator fires exactly on empty extracted
services. -/
lemma validateQuestion_note (number : Nat) (question : String)
    (options : List (Char × String)) (correct_answer : Option Char) :
    (QuestionParser.validateQuestion number question options correct_answer).2 = true ↔
      QuestionParser.extractServices
        (question ++ " " ++ joinSpace (options.map Prod.snd)) = [] := by
  simp [QuestionParser.validateQuestion]

/-- Document for C9: a single question block with three service-free options;
the block is rejected by the validator yet still produces a reflection note. -/
def docC9 : List String :=
  [ "1. ¿x?",
    "A) y ✅",
    "B) z",
    "C) w" ]

set_option maxRecDepth 100000 in
/-- C9: the zero-services reflection note is appended once for every flushed
block whose combined question-and-options text matches no canonical service
name — also for blocks the validator rejects.  Concretely, `docC9`'s only
block is rejected (no record, nonempty error list) and still produces the
note, so the note list does not correspond one-to-one with accepted records
lacking services. -/
theorem reflection_note_even_for_rejected (st : ParserState) (q : RawQuestion)
    (h : QuestionParser.extractServices
      (q.question ++ " " ++ joinSpace (q.options.map Prod.snd)) = []) :
    (QuestionParser.processQuestion st q).notes = st.notes ++ [q.number] ∧
      ((QuestionParser.parse docC9).notes = [1] ∧
        (QuestionParser.parse docC9).questions = [] ∧
        (QuestionParser.parse docC9).errors ≠ []) := by
  constructor
  · rw [processQuestion_notes,
      if_pos ((validateQuestion_note q.number q.question q.options q.correct_answer).2 h)]
  · refine ⟨by decide, by decide, by decide⟩

set_option maxRecDepth 100000 in
/-- Witness for C9 at a concrete one-option service-free block. -/
theorem reflection_note_even_for_rejected_witness :
    (QuestionParser.processQuestion ⟨[], [], []⟩ ⟨5, "¿x?", [('A', "y")], none, ""⟩).notes =
      ([] : List Nat) ++ [5] :=
  (reflection_note_even_for_rejected ⟨[], [], []⟩ ⟨5, "¿x?", [('A', "y")], none, ""⟩
    (by decide)).1

/-- Document for C6: block 1 is malformed (two options), block 2 is
complete; extraction of block 2 proceeds after block 1's rejection. -/
def docC6 : List String :=
  [ "1. ¿Que es EC2?",
    "A) a ✅",
    "B) b",
    "2. ¿Que es S3?",
    "A) a ✅",
    "B) b",
    "C) c",
    "D) d" ]

set_option maxRecDepth 400000 in
/-- C6: for a rejected block every hard-error condition that holds is
recorded (each characterized by its own if-and-only-if), every recorded
error carries the block's ordinal, the block is excluded from the output
while the errors are appended, and processing continues with later blocks
(concretely: in `docC6` the malformed block 1 yields two errors and the
subsequent block 2 is still accepted). -/
theorem validator_accumulates_all_errors
    (n : Nat) (qs : String) (opts : List (Char × String)) (c : Option Char)
    (st : ParserState) (q : RawQuestion) :
    ((∃ e ∈ (QuestionParser.validateQuestion n qs opts c).1,
        e.kind = .wrongOptionCount opts.length) ↔ opts.length ≠ 4) ∧
      ((∃ e ∈ (QuestionParser.validateQuestion n qs opts c).1,
        e.kind = .incompleteKeys (opts.map Prod.fst)) ↔
          ¬ keysSetABCD (opts.map Prod.fst) = true) ∧
      ((∃ e ∈ (QuestionParser.validateQuestion n qs opts c).1,
        e.kind = .noCorrectAnswer) ↔ c = none) ∧
      (∀ cc, c = some cc →
        ((∃ e ∈ (QuestionParser.validateQuestion n qs opts c).1,
          e.kind = .correctNotInOptions cc) ↔ cc ∉ opts.map Prod.fst)) ∧
      (∀ e ∈ (QuestionParser.validateQuestion n qs opts c).1, e.qnum = n) ∧
      ((QuestionParser.validateQuestion q.number q.question q.options
          q.correct_answer).1 ≠ [] →
        (QuestionParser.processQuestion st q).questions = st.questions ∧
        (QuestionParser.processQuestion st q).errors = st.errors ++
          (QuestionParser.validateQuestion q.number q.question q.options
            q.correct_answer).1) ∧
      (QuestionParser.parse docC6).questions.map (fun r => r.originalNumber) = [2] ∧
      (QuestionParser.parse docC6).errors.map (fun e => e.qnum) = [1, 1] := by
  refine ⟨?_, ?_, ?_, ?_, validateQuestion_qnum n qs opts c, ?_, by decide, by decide⟩
  · rcases c with _ | cc <;>
      simp [QuestionParser.validateQuestion, List.mem_append] <;>
      aesop
  · rcases c with _ | cc <;>
      simp [QuestionParser.validateQuestion, List.mem_append] <;>
      aesop
  · rcases c with _ | cc <;>
      simp [QuestionParser.validateQuestion, List.mem_append] <;>
      aesop
  · rintro cc rfl
    simp [QuestionParser.validateQuestion, List.mem_append]
    aesop
  · intro hne
    exact ⟨by rw [processQuestion_questions, if_neg hne],
      by rw [processQuestion_errors, if_neg hne]⟩

set_option maxRecDepth 100000 in
/-- Witness for C6 at concrete inputs: a marked answer outside a
three-option set is reported, and a concrete invalid block is excluded while
its errors are appended. -/
theorem validator_accumulates_all_errors_witness :
    ((∃ e ∈ (QuestionParser.validateQuestion 2 "¿q?"
        [('A', "a"), ('B', "b"), ('C', "c")] (some 'E')).1,
        e.kind = .correctNotInOptions 'E') ↔
      'E' ∉ ([('A', "a"), ('B', "b"), ('C', "c")].map Prod.fst)) ∧
      (QuestionParser.processQuestion ⟨[], [], []⟩ ⟨1, "¿x?", [('A', "a")], none, ""⟩).questions
          = [] ∧
      (QuestionParser.processQuestion ⟨[], [], []⟩ ⟨1, "¿x?", [('A', "a")], none, ""⟩).errors
          = [] ++ (QuestionParser.validateQuestion 1 "¿x?" [('A', "a")] none).1 :=
  ⟨(validator_accumulates_all_errors 2 "¿q?" [('A', "a"), ('B', "b"), ('C', "c")]
      (some 'E') ⟨[], [], []⟩ ⟨1, "¿x?", [('A', "a")], none, ""⟩).2.2.2.1 'E' rfl,
    ((validator_accumulates_all_errors 2 "¿q?" [('A', "a"), ('B', "b"), ('C', "c")]
      (some 'E') ⟨[], [], []⟩ ⟨1, "¿x?", [('A', "a")], none, ""⟩).2.2.2.2.2.1
      (by decide)).1,
    ((validator_accumulates_all_errors 2 "¿q?" [('A', "a"), ('B', "b"), ('C', "c")]
      (some 'E') ⟨[], [], []⟩ ⟨1, "¿x?", [('A', "a")], none, ""⟩).2.2.2.2.2.1
      (by decide)).2⟩

/-- Document for C2: three question blocks, the second with only three
lettered options, the first and third complete. -/
def docC2 : List String :=
  [ "1. ¿Que es Amazon EC2?",
    "A) Computo ✅",
    "B) Base",
    "C) Almacen",
    "D) Red",
    "2. ¿Que es Amazon S3?",
    "A) Almacen ✅",
    "B) Computo",
    "C) Red",
    "3. ¿Que es AWS Lambda?",
    "A) Serverless ✅",
    "B) Base",
    "C) Almacen",
    "D) Red" ]

set_option maxRecDepth 400000 in
/-- Counterexample to C2 as stated: on `docC2` (a 3-question document whose
second question has only three lettered options) the parser does accept
exactly the two records (id 1, originalNumber 1) and (id 2, originalNumber 3),
and every recorded error references original number 2 — but it records TWO
structural errors for question 2 (option count 3 is not 4, and the key set is incomplete), not exactly one. -/
theorem three_question_scenario_error_count :
    (QuestionParser.parse docC2).questions.map (fun r => (r.id, r.originalNumber)) =
        [(1, 1), (2, 3)] ∧
      (∀ e ∈ (QuestionParser.parse docC2).errors, e.qnum = 2) ∧
      (QuestionParser.parse docC2).errors.length = 2 ∧
      ¬ (QuestionParser.parse docC2).errors.length = 1 := by
  refine ⟨by decide, by decide, by decide, by decide⟩

set_option maxRecDepth 400000 in
/-- C2 (amended): the 3-question document with a three-option second
question yields exactly two accepted records — ids 1 and 2, originalNumbers
1 and 3 — and exactly two recorded structural errors, both referencing
original number 2: one for the option count of 3 and one for the incomplete
key set. -/
theorem three_question_scenario_result :
    (QuestionParser.parse docC2).questions.map (fun r => (r.id, r.originalNumber)) =
        [(1, 1), (2, 3)] ∧
      (QuestionParser.parse docC2).errors =
        [⟨2, .wrongOptionCount 3⟩, ⟨2, .incompleteKeys ['A', 'B', 'C']⟩] := by
  refine ⟨by decide, by decide⟩

/-- `Rat.floor` agrees with the floor of the `FloorRing` instance. -/
lemma ratFloor_eq_intFloor (q : ℚ) : Rat.floor q = ⌊q⌋ :=
  (Rat.floor_def' q).trans Rat.floor_def.symm

/-- `pyRound1` fixes every integer rational. -/
lemma pyRound1_int (z : ℤ) : pyRound1 ((z : ℚ)) = z := by
  unfold pyRound1
  simp only []
  rw [ratFloor_eq_intFloor]
  rw [show ((z : ℚ) * 10) = ((10 * z : ℤ) : ℚ) by push_cast; ring, Int.floor_intCast]
  rw [if_pos (by push_cast; norm_num)]
  push_cast
  ring

/-- C10: report generation is total on an empty accepted set — the
percentage table is computed over the (empty) set of domains actually
present, so no ratio with a zero denominator is ever formed, and the
comparison table still lists all four official domains with actual
percentage 0 (and difference minus the expected weight). -/
theorem report_on_empty_accepted_set (validation_errors : List VError)
    (reflection_notes : List Nat) :
    QuestionParser.domainPercentages [] = [] ∧
      (QuestionParser.generateReflectionReport [] validation_errors
          reflection_notes).domain_distribution =
        [("Domain 1: Cloud Concepts", ⟨0, 24, -24⟩),
         ("Domain 2: Security and Compliance", ⟨0, 30, -30⟩),
         ("Domain 3: Cloud Technology and Services", ⟨0, 34, -34⟩),
         ("Domain 4: Billing, Pricing, and Support", ⟨0, 12, -12⟩)] ∧
      (QuestionParser.generateReflectionReport [] validation_errors
          reflection_notes).total_questions = 0 ∧
      (QuestionParser.generateReflectionReport [] validation_errors
          reflection_notes).top_services = [] := by
  have e0 : pyRound1 (0 : ℚ) = 0 := by
    rw [show ((0 : ℚ)) = ((0 : ℤ) : ℚ) by norm_num, pyRound1_int]
  have e24 : pyRound1 ((-24 : ℚ)) = -24 := by
    rw [show ((-24 : ℚ)) = (((-24) : ℤ) : ℚ) by norm_num, pyRound1_int]
  have e30 : pyRound1 ((-30 : ℚ)) = -30 := by
    rw [show ((-30 : ℚ)) = (((-30) : ℤ) : ℚ) by norm_num, pyRound1_int]
  have e34 : pyRound1 ((-34 : ℚ)) = -34 := by
    rw [show ((-34 : ℚ)) = (((-34) : ℤ) : ℚ) by norm_num, pyRound1_int]
  have e12 : pyRound1 ((-12 : ℚ)) = -12 := by
    rw [show ((-12 : ℚ)) = (((-12) : ℤ) : ℚ) by norm_num, pyRound1_int]
  refine ⟨rfl, ?_, rfl, rfl⟩
  simp only [QuestionParser.generateReflectionReport, QuestionParser.domainPercentages,
    counterOf, QuestionParser.pctGet, OFFICIAL_DOMAINS, List.map_cons, List.map_nil,
    List.foldl_nil, List.find?_nil]
  norm_num [e0, e24, e30, e34, e12]

end Clf02